import Mathlib

set_option linter.unusedVariables false

/-!
Shallow embedding of the NSW-Crime-RAG-System's scoring and orchestration code
(src/evaluation_framework.py and src/rag_pipeline.py).

Python strings are modelled as Lean `String`; Python's substring test
`a in b` becomes an infix test on character lists; Python `str.lower()`
becomes a character-wise `Char.toLower` map (the texts involved are ASCII).  Python floats are modelled
exactly as rationals `ℚ` (the spec's "within floating tolerance").  Python
dicts used as string-keyed metadata bags become association lists with
`List.lookup`.  Fallible calls become `Except`.
-/

/-- A retrieved source document `{content, metadata}` as produced by
`NSWCrimeRAGPipeline.query` and consumed by the evaluator. -/
structure SourceDoc where
  content : String
  metadata : List (String × String)
deriving DecidableEq

/-- Python `needle in hay` for lists of characters: `needle` occurs
contiguously inside `hay`. -/
def infixOfB : List Char → List Char → Bool
  | needle, [] => needle.isEmpty
  | needle, c :: cs => needle.isPrefixOf (c :: cs) || infixOfB needle cs

/-- Python `str.lower()`: character-wise lowercasing (the corpus and the
vocabularies are ASCII, where Python lowercasing is exactly per-character).
Defined over the character list so that it evaluates by kernel reduction. -/
def strLower (s : String) : String :=
  String.mk (s.toList.map Char.toLower)

/-- Python `needle.lower() in hay.lower()` (case-insensitive substring test). -/
def substrCI (hay needle : String) : Bool :=
  infixOfB (strLower needle).toList (strLower hay).toList

/-- Python `needle in hay` (case-sensitive substring test). -/
def substrCS (hay needle : String) : Bool :=
  infixOfB needle.toList hay.toList

/-- `RAGEvaluator.evaluate_effectiveness`: the fraction of expected keywords
occurring case-insensitively in the answer; `0.0` when the answer or the
keyword list is empty.  The `question` parameter is unused, as in the source. -/
def evaluate_effectiveness (question answer : String)
    (expected_keywords : List String) : ℚ :=
  if answer.isEmpty || expected_keywords.isEmpty then 0
  else
    let keyword_matches : Nat :=
      expected_keywords.foldl
        (fun acc keyword => if substrCI answer keyword then acc + 1 else acc) 0
    (keyword_matches : ℚ) / (expected_keywords.length : ℚ)

/-- Helper for `re.findall(r'\d+', text)`: accumulates the current run of
digit characters (reversed) in `acc` and emits each maximal run. -/
def digitRunsAux : List Char → List Char → List String
  | [], acc => if acc.isEmpty then [] else [String.mk acc.reverse]
  | c :: cs, acc =>
    if c.isDigit then digitRunsAux cs (c :: acc)
    else if acc.isEmpty then digitRunsAux cs []
    else String.mk acc.reverse :: digitRunsAux cs []

/-- `re.findall(r'\d+', text)`: the maximal runs of digits in `text`,
in order of occurrence. -/
def findall_digits (text : String) : List String :=
  digitRunsAux text.toList []

/-- The fixed crime-category vocabulary of `RAGEvaluator._extract_facts`. -/
def crime_types : List String :=
  ["Murder", "Assault", "Robbery", "Break and enter", "Motor vehicle theft",
   "Drug", "Sexual assault", "Fraud", "Domestic violence"]

/-- The fixed region-name vocabulary of `RAGEvaluator._extract_facts`. -/
def lgas : List String :=
  ["Greater Sydney", "NSW Regional", "New South Wales"]

/-- The fixed trend vocabulary of `RAGEvaluator._extract_facts`. -/
def trends : List String :=
  ["increasing", "decreasing", "stable"]

/-- `RAGEvaluator._extract_facts`: all numeric substrings, then the
crime-category and region vocabulary terms appearing verbatim in `text`,
then the trend words appearing in `text.lower()`. -/
def extract_facts (text : String) : List String :=
  findall_digits text
    ++ crime_types.filter (fun crime_type => substrCS text crime_type)
    ++ lgas.filter (fun lga => substrCS text lga)
    ++ trends.filter (fun trend => infixOfB trend.toList (strLower text).toList)

/-- The inner loop of `evaluate_faithfulness`: `fact.lower()` occurs in
`doc['content'].lower()` for some retrieved document (the `break` after the
first hit makes the loop a disjunction over the documents). -/
def fact_supported (source_documents : List SourceDoc) (fact : String) : Bool :=
  source_documents.any (fun doc => substrCI doc.content fact)

/-- `RAGEvaluator.evaluate_faithfulness`: the fraction of extracted facts
supported by at least one source document; `0.0` when the answer is empty,
no documents were retrieved, or no facts are extracted. -/
def evaluate_faithfulness (answer : String)
    (source_documents : List SourceDoc) : ℚ :=
  if answer.isEmpty || source_documents.isEmpty then 0
  else
    let answer_facts := extract_facts answer
    if answer_facts.isEmpty then 0
    else
      let supported_facts : Nat :=
        answer_facts.foldl
          (fun acc fact => if fact_supported source_documents fact then acc + 1 else acc) 0
      (supported_facts : ℚ) / (answer_facts.length : ℚ)

/-- The `actual_sources` set built by `evaluate_source_attribution`:
the `'lga'` metadata values of the retrieved documents. -/
def actual_sources (source_documents : List SourceDoc) : Finset String :=
  (source_documents.filterMap (fun doc => doc.metadata.lookup "lga")).toFinset

/-- `RAGEvaluator.evaluate_source_attribution`: `0.0` with no retrieved
documents, `1.0` with documents but no expected sources, otherwise
`|actual ∩ expected| / |expected|` over the deduplicated expected set.
(The source's second `if not expected_sources_set` test is unreachable
there and is omitted.) -/
def evaluate_source_attribution (source_documents : List SourceDoc)
    (expected_sources : List String) : ℚ :=
  if source_documents.isEmpty then 0
  else if expected_sources.isEmpty then 1
  else
    let expected_sources_set := expected_sources.toFinset
    ((actual_sources source_documents ∩ expected_sources_set).card : ℚ)
      / (expected_sources_set.card : ℚ)

/-- The `EvaluationResult` dataclass of the evaluation framework. -/
structure EvaluationResult where
  question : String
  answer : String
  source_documents : List SourceDoc
  effectiveness_score : ℚ
  faithfulness_score : ℚ
  source_attribution_score : ℚ
  overall_score : ℚ
  timestamp : String
deriving DecidableEq

/-- One benchmark entry of `RAGEvaluator._load_ground_truth`. -/
structure GroundTruthItem where
  question : String
  expected_keywords : List String
  expected_sources : List String
deriving DecidableEq

/-- `RAGEvaluator._load_ground_truth`: the fixed ten-item benchmark. -/
def load_ground_truth : List GroundTruthItem :=
  [⟨"What are the crime statistics for Greater Sydney?",
    ["Greater Sydney", "crime", "statistics", "rate", "count", "per 100000"],
    ["Greater Sydney"]⟩,
   ⟨"Compare crime rates between Greater Sydney and NSW Regional areas",
    ["compare", "Greater Sydney", "NSW Regional", "rate", "per 100000", "difference"],
    ["Greater Sydney", "NSW Regional"]⟩,
   ⟨"Which region has the highest assault rates?",
    ["highest", "assault", "rate", "region", "Greater Sydney", "NSW Regional", "New South Wales"],
    ["Greater Sydney", "NSW Regional", "New South Wales"]⟩,
   ⟨"What are the most common types of crimes in NSW?",
    ["common", "types", "crimes", "NSW", "Assault", "Theft", "Drug", "Break and enter"],
    ["New South Wales"]⟩,
   ⟨"How has domestic violence related assault changed over time?",
    ["domestic violence", "assault", "changed", "time", "trend", "increasing", "decreasing"],
    ["Greater Sydney", "NSW Regional", "New South Wales"]⟩,
   ⟨"What crime trends have occurred from 2015 to 2024?",
    ["trends", "2015", "2024", "crime", "increasing", "decreasing", "stable"],
    ["Greater Sydney", "NSW Regional", "New South Wales"]⟩,
   ⟨"What are the murder rates across NSW regions?",
    ["murder", "rate", "regions", "Greater Sydney", "NSW Regional", "New South Wales"],
    ["Greater Sydney", "NSW Regional", "New South Wales"]⟩,
   ⟨"How prevalent is motor vehicle theft in Greater Sydney?",
    ["motor vehicle theft", "prevalent", "Greater Sydney", "rate", "count"],
    ["Greater Sydney"]⟩,
   ⟨"Which areas have the highest drug-related crime rates?",
    ["drug", "highest", "rate", "areas", "dealing", "trafficking", "possession"],
    ["Greater Sydney", "NSW Regional", "New South Wales"]⟩,
   ⟨"Show me all drug-related offenses in NSW",
    ["drug", "offenses", "NSW", "dealing", "trafficking", "possession", "cannabis", "amphetamines"],
    ["New South Wales"]⟩]

/-- The `{question, answer, source_documents}` dict returned by
`NSWCrimeRAGPipeline.query`. -/
structure QueryResult where
  question : String
  answer : String
  source_documents : List SourceDoc
deriving DecidableEq

/-- The record built once per successful benchmark item inside
`RAGEvaluator.run_evaluation` (lines 174-201 of the source): the three
component scores of the answer and the `0.4/0.4/0.2`-weighted overall score.
Python's float literals `0.4` and `0.2` are the rationals `4/10` and `2/10`
in this exact-arithmetic model. -/
def mk_evaluation_result (gt : GroundTruthItem) (result : QueryResult)
    (timestamp : String) : EvaluationResult :=
  let effectiveness := evaluate_effectiveness gt.question result.answer gt.expected_keywords
  let faithfulness := evaluate_faithfulness result.answer result.source_documents
  let source_attribution :=
    evaluate_source_attribution result.source_documents gt.expected_sources
  { question := gt.question
    answer := result.answer
    source_documents := result.source_documents
    effectiveness_score := effectiveness
    faithfulness_score := faithfulness
    source_attribution_score := source_attribution
    overall_score := effectiveness * (4/10) + faithfulness * (4/10) + source_attribution * (2/10)
    timestamp := timestamp }

/-- The loop of `RAGEvaluator.run_evaluation` over the remaining benchmark
items.  `query` is the `self.pipeline.query` call (any exception it raises is
the `Except.error` case, caught by the loop's `try/except`, which skips the
item); `tsOf` supplies the `datetime.now().isoformat()` string for an item;
`results` is the `self.evaluation_results` accumulator the loop appends to. -/
def run_evaluation {ε : Type} (query : String → Except ε QueryResult)
    (tsOf : String → String) :
    List GroundTruthItem → List EvaluationResult → List EvaluationResult
  | [], results => results
  | gt :: rest, results =>
    match query gt.question with
    | .error _ => run_evaluation query tsOf rest results
    | .ok result =>
      run_evaluation query tsOf rest
        (results ++ [mk_evaluation_result gt result (tsOf gt.question)])

/-- What one iteration of the `run_evaluation` loop contributes for one
benchmark item: nothing when the query raises, one `EvaluationResult` when it
succeeds.  (Vocabulary for the theorems; not a source function.) -/
def eval_item {ε : Type} (query : String → Except ε QueryResult)
    (tsOf : String → String) (gt : GroundTruthItem) : Option EvaluationResult :=
  match query gt.question with
  | .error _ => none
  | .ok result => some (mk_evaluation_result gt result (tsOf gt.question))

/-- The mutable state of a `RAGEvaluator`: `self.evaluation_results`
(created empty by `__init__`) and `self.ground_truth_data`. -/
structure RAGEvaluator where
  evaluation_results : List EvaluationResult
  ground_truth_data : List GroundTruthItem

/-- `RAGEvaluator.__init__`: empty result list, fixed benchmark. -/
def RAGEvaluator.construct : RAGEvaluator :=
  { evaluation_results := [], ground_truth_data := load_ground_truth }

/-- `RAGEvaluator.run_evaluation` as a state transformer: the loop appends to
`self.evaluation_results` and the method returns the updated evaluator. -/
def RAGEvaluator.run {ε : Type} (ev : RAGEvaluator)
    (query : String → Except ε QueryResult) (tsOf : String → String) : RAGEvaluator :=
  { ev with evaluation_results :=
      run_evaluation query tsOf ev.ground_truth_data ev.evaluation_results }

/-- Python `round(x, 3)` idealized over exact rationals: nearest multiple of
`1/1000` (the source rounds binary floats with ties-to-even; on exact
rationals the nearest-multiple reading is the faithful idealization). -/
def round3 (q : ℚ) : ℚ := (round (q * 1000) : ℤ) / 1000

/-- Python `round(x, 1)`, as in `round(unanswered_percentage, 1)`. -/
def round1 (q : ℚ) : ℚ := (round (q * 10) : ℤ) / 10

/-- The `evaluation_summary` block of `RAGEvaluator.generate_report`. -/
structure EvaluationSummary where
  total_questions : Nat
  average_effectiveness : ℚ
  average_faithfulness : ℚ
  average_source_attribution : ℚ
  average_overall_score : ℚ
  unanswered_questions : Nat
  unanswered_percentage : ℚ
deriving DecidableEq

/-- One entry of the `detailed_results` block of the report. -/
structure DetailedResult where
  question : String
  effectiveness_score : ℚ
  faithfulness_score : ℚ
  source_attribution_score : ℚ
  overall_score : ℚ
deriving DecidableEq

/-- The dict returned by `RAGEvaluator.generate_report`: either the
`{"error": ...}` dict or the full report. -/
inductive Report where
  | error (message : String)
  | report (evaluation_summary : EvaluationSummary)
      (detailed_results : List DetailedResult) (recommendations : List String)
deriving DecidableEq

/-- `RAGEvaluator._generate_recommendations`, over the unrounded averages. -/
def generate_recommendations (effectiveness faithfulness source_attribution : ℚ) :
    List String :=
  let recommendations :=
    (if effectiveness < 7/10 then
      ["Improve answer relevance by fine-tuning the retrieval system or adjusting the prompt template"]
     else [])
    ++ (if faithfulness < 7/10 then
      ["Enhance faithfulness by improving the grounding of answers in source documents"]
     else [])
    ++ (if source_attribution < 7/10 then
      ["Improve source attribution by optimizing the retriever to find more relevant documents"]
     else [])
    ++ (if effectiveness ≥ 8/10 ∧ faithfulness ≥ 8/10 then
      ["System is performing well. Consider expanding the knowledge base for broader coverage"]
     else [])
  if recommendations.isEmpty then
    ["Continue monitoring system performance and consider expanding evaluation criteria"]
  else recommendations

/-- `RAGEvaluator.generate_report` over a result list: the `{"error": ...}`
dict when no results have been accumulated, otherwise averages, the
`overall_score < 0.3` unanswered count and percentage, per-question details,
and recommendations. -/
def generate_report (results : List EvaluationResult) : Report :=
  if results.isEmpty then Report.error "No evaluation results available"
  else
    let total_questions : Nat := results.length
    let avg_effectiveness := (results.map (fun r => r.effectiveness_score)).sum / total_questions
    let avg_faithfulness := (results.map (fun r => r.faithfulness_score)).sum / total_questions
    let avg_source_attribution :=
      (results.map (fun r => r.source_attribution_score)).sum / total_questions
    let avg_overall := (results.map (fun r => r.overall_score)).sum / total_questions
    let unanswered_questions : Nat := results.countP (fun r => r.overall_score < 3/10)
    let unanswered_percentage := ((unanswered_questions : ℚ) / (total_questions : ℚ)) * 100
    Report.report
      { total_questions := total_questions
        average_effectiveness := round3 avg_effectiveness
        average_faithfulness := round3 avg_faithfulness
        average_source_attribution := round3 avg_source_attribution
        average_overall_score := round3 avg_overall
        unanswered_questions := unanswered_questions
        unanswered_percentage := round1 unanswered_percentage }
      (results.map (fun r =>
        { question := r.question
          effectiveness_score := round3 r.effectiveness_score
          faithfulness_score := round3 r.faithfulness_score
          source_attribution_score := round3 r.source_attribution_score
          overall_score := round3 r.overall_score }))
      (generate_recommendations avg_effectiveness avg_faithfulness avg_source_attribution)

/-- `RAGEvaluator.generate_report` reads `self.evaluation_results`. -/
def RAGEvaluator.report_of (ev : RAGEvaluator) : Report :=
  generate_report ev.evaluation_results

/-- A corpus document as loaded by `NSWCrimeRAGPipeline.load_documents`
(`langchain.schema.Document`: `page_content` plus a metadata mapping). -/
structure Document where
  page_content : String
  metadata : List (String × String)
deriving DecidableEq

/-- The vector-store handle held by the pipeline, tagged with how it was
obtained: `created` by `create_vector_store` from the given corpus documents
(the store embeds their chunk splits), or `loaded` from the persisted
directory by `load_vector_store`. -/
inductive Vectorstore where
  | created (documents : List Document)
  | loaded
deriving DecidableEq

/-- The Python exceptions raised by the pipeline methods
(`ValueError("QA chain not initialized")` and
`ValueError("Vector store not initialized")`). -/
inductive PipelineError where
  | qa_chain_not_set
  | vectorstore_not_set
deriving DecidableEq

/-- The mutable state of `NSWCrimeRAGPipeline`: `self.vectorstore` and
`self.qa_chain`, both `None` after `__init__`.  The QA chain retains the
vector store it was wired over. -/
structure PipelineState where
  vectorstore : Option Vectorstore
  qa_chain : Option Vectorstore
deriving DecidableEq

/-- `NSWCrimeRAGPipeline.__init__`: no vector store, no QA chain. -/
def pipeline_init : PipelineState :=
  { vectorstore := none, qa_chain := none }

/-- `NSWCrimeRAGPipeline.create_vector_store`: builds a fresh store from the
corpus documents (chunking and embedding are the external services) and
installs it as `self.vectorstore`. -/
def create_vector_store (st : PipelineState) (documents : List Document) :
    PipelineState :=
  { st with vectorstore := some (Vectorstore.created documents) }

/-- `NSWCrimeRAGPipeline.load_vector_store`: opens the persisted store
without re-embedding and installs it as `self.vectorstore`. -/
def load_vector_store (st : PipelineState) : PipelineState :=
  { st with vectorstore := some Vectorstore.loaded }

/-- `NSWCrimeRAGPipeline.setup_qa_chain`: raises when `self.vectorstore` is
unset, otherwise wires the QA chain over it. -/
def setup_qa_chain (st : PipelineState) : Except PipelineError PipelineState :=
  match st.vectorstore with
  | none => Except.error PipelineError.vectorstore_not_set
  | some vs => Except.ok { st with qa_chain := some vs }

/-- `NSWCrimeRAGPipeline.initialize_pipeline`: builds the store when
`force_recreate` is set or no persisted index exists at `"chroma_db"`
(`persist_directory_exists` models `os.path.exists(persist_directory)`),
otherwise loads the persisted one; then wires the QA chain.  `documents` is
the corpus parsed by `load_documents`. -/
def initialize_pipeline (st : PipelineState) (persist_directory_exists : Bool)
    (documents : List Document) (force_recreate : Bool) :
    Except PipelineError PipelineState :=
  let st1 :=
    if force_recreate || !persist_directory_exists then
      create_vector_store st documents
    else
      load_vector_store st
  setup_qa_chain st1

/-- `NSWCrimeRAGPipeline.query`: raises `ValueError` when the QA chain is
not wired, otherwise invokes the chain (`chain` models the external
retrieval-and-generation call, returning the answer text and the retrieved
source documents) and packages the result dict. -/
def pipeline_query (st : PipelineState) (chain : String → String × List SourceDoc)
    (question : String) : Except PipelineError QueryResult :=
  match st.qa_chain with
  | none => Except.error PipelineError.qa_chain_not_set
  | some _ =>
    let result := chain question
    Except.ok { question := question, answer := result.1, source_documents := result.2 }

/-- `needle` occurs contiguously inside `hay` (the specification meaning of
Python's substring operator; vocabulary for the theorems). -/
def OccursIn (needle hay : List Char) : Prop :=
  ∃ pre suf, hay = pre ++ needle ++ suf

/-- The counting loops of the evaluator (`keyword_matches`, `supported_facts`)
compute `countP` of their predicate. -/
theorem foldl_count_eq {α : Type} (p : α → Bool) (l : List α) (n : Nat) :
    l.foldl (fun acc a => if p a then acc + 1 else acc) n = n + l.countP p := by
  induction l generalizing n with
  | nil => simp
  | cons a l ih =>
    simp only [List.foldl_cons, List.countP_cons]
    by_cases h : p a
    · simp only [h, if_true, ih]
      omega
    · simp [h, ih]

theorem ratio_nonneg (a b : Nat) : 0 ≤ (a : ℚ) / (b : ℚ) := by positivity

theorem ratio_le_one {a b : Nat} (h : a ≤ b) : (a : ℚ) / (b : ℚ) ≤ 1 := by
  rcases Nat.eq_zero_or_pos b with hb | hb
  · subst hb; simp
  · rw [div_le_one (by exact_mod_cast hb)]
    exact_mod_cast h

theorem isPrefixOf_iff (needle : List Char) : ∀ hay : List Char,
    needle.isPrefixOf hay = true ↔ ∃ suf, hay = needle ++ suf := by
  induction needle with
  | nil => intro hay; simp [List.isPrefixOf]
  | cons a as ih =>
    intro hay
    cases hay with
    | nil => simp [List.isPrefixOf]
    | cons b bs =>
      simp only [List.isPrefixOf, Bool.and_eq_true, beq_iff_eq, ih, List.cons_append,
        List.cons.injEq]
      constructor
      · rintro ⟨rfl, suf, rfl⟩; exact ⟨suf, rfl, rfl⟩
      · rintro ⟨suf, h1, h2⟩; exact ⟨h1.symm, suf, h2⟩

theorem infixOfB_iff (needle : List Char) : ∀ hay : List Char,
    infixOfB needle hay = true ↔ OccursIn needle hay := by
  intro hay
  induction hay with
  | nil =>
    simp only [infixOfB, OccursIn, List.isEmpty_eq_true]
    constructor
    · rintro rfl; exact ⟨[], [], rfl⟩
    · rintro ⟨pre, suf, h⟩
      rcases List.append_eq_nil.mp h.symm with ⟨h1, h2⟩
      exact (List.append_eq_nil.mp h1).2
  | cons c cs ih =>
    simp only [infixOfB, Bool.or_eq_true, isPrefixOf_iff, ih, OccursIn]
    constructor
    · rintro (⟨suf, h⟩ | ⟨pre, suf, h⟩)
      · exact ⟨[], suf, by simpa using h⟩
      · exact ⟨c :: pre, suf, by simp [h]⟩
    · rintro ⟨pre, suf, h⟩
      cases pre with
      | nil => left; exact ⟨suf, by simpa using h⟩
      | cons p ps =>
        right
        injection h with h1 h2
        exact ⟨ps, suf, h2⟩

/-- Soundness of the digit-run scanner: with an all-digit accumulator, every
emitted string is a nonempty all-digit run occurring in `acc.reverse ++ cs`. -/
theorem digitRunsAux_spec : ∀ (cs acc : List Char),
    (∀ c ∈ acc, c.isDigit = true) →
    ∀ s ∈ digitRunsAux cs acc,
      s.toList ≠ [] ∧ (∀ c ∈ s.toList, c.isDigit = true) ∧
        OccursIn s.toList (acc.reverse ++ cs) := by
  intro cs
  induction cs with
  | nil =>
    intro acc hacc s hs
    cases acc with
    | nil => simp [digitRunsAux] at hs
    | cons a as =>
      simp only [digitRunsAux, List.isEmpty_cons, if_false, Bool.false_eq_true,
        List.mem_singleton] at hs
      subst hs
      refine ⟨by simp [String.toList], ?_, [], [], by simp [String.toList]⟩
      intro c hc
      simp only [String.toList] at hc
      exact hacc c (List.mem_reverse.mp hc)
  | cons c cs ih =>
    intro acc hacc s hs
    by_cases hd : c.isDigit = true
    · rw [digitRunsAux, if_pos hd] at hs
      have hacc2 : ∀ x ∈ c :: acc, x.isDigit = true := by
        intro x hx
        rcases List.mem_cons.mp hx with rfl | hx
        · exact hd
        · exact hacc x hx
      obtain ⟨h1, h2, pre, suf, h3⟩ := ih (c :: acc) hacc2 s hs
      refine ⟨h1, h2, pre, suf, ?_⟩
      simpa [List.reverse_cons, List.append_assoc] using h3
    · cases acc with
      | nil =>
        rw [digitRunsAux, if_neg hd, if_pos (by simp)] at hs
        obtain ⟨h1, h2, pre, suf, h3⟩ := ih [] (by simp) s hs
        simp only [List.reverse_nil, List.nil_append] at h3
        exact ⟨h1, h2, c :: pre, suf, by simp [h3]⟩
      | cons a as =>
        rw [digitRunsAux, if_neg hd, if_neg (by simp)] at hs
        rcases List.mem_cons.mp hs with rfl | hs2
        · refine ⟨by simp [String.toList], ?_, [], c :: cs, by simp [String.toList]⟩
          intro x hx
          simp only [String.toList] at hx
          exact hacc x (List.mem_reverse.mp hx)
        · obtain ⟨h1, h2, pre, suf, h3⟩ := ih [] (by simp) s hs2
          simp only [List.reverse_nil, List.nil_append] at h3
          refine ⟨h1, h2, (a :: as).reverse ++ [c] ++ pre, suf, by simp [h3]⟩

/-- `_extract_facts` of the empty answer extracts nothing. -/
theorem extract_facts_empty : extract_facts "" = [] := by rfl

/-- Every fact extracted by `_extract_facts` is a nonempty digit run of the
text, or a crime-category or region term occurring verbatim in it, or a trend
word occurring in its lowercasing. -/
theorem extract_facts_mem (text fact : String) (h : fact ∈ extract_facts text) :
    (fact.toList ≠ [] ∧ (∀ c ∈ fact.toList, c.isDigit = true) ∧
        OccursIn fact.toList text.toList)
    ∨ (fact ∈ crime_types ∧ OccursIn fact.toList text.toList)
    ∨ (fact ∈ lgas ∧ OccursIn fact.toList text.toList)
    ∨ (fact ∈ trends ∧ OccursIn fact.toList (strLower text).toList) := by
  simp only [extract_facts, List.mem_append, List.mem_filter] at h
  rcases h with ((h | h) | h) | h
  · left
    have := digitRunsAux_spec text.toList [] (by simp) fact h
    simpa using this
  · right; left
    refine ⟨h.1, ?_⟩
    have := h.2
    simp only [substrCS] at this
    exact (infixOfB_iff _ _).mp this
  · right; right; left
    refine ⟨h.1, ?_⟩
    have := h.2
    simp only [substrCS] at this
    exact (infixOfB_iff _ _).mp this
  · right; right; right
    exact ⟨h.1, (infixOfB_iff _ _).mp h.2⟩

/-- A fact is supported exactly when its lowercasing occurs in the
lowercasing of some retrieved document's content. -/
theorem fact_supported_iff (source_documents : List SourceDoc) (fact : String) :
    fact_supported source_documents fact = true ↔
      ∃ doc ∈ source_documents,
        OccursIn (strLower fact).toList (strLower doc.content).toList := by
  simp [fact_supported, substrCI, List.any_eq_true, infixOfB_iff]

theorem evaluate_effectiveness_eq (question answer : String)
    (expected_keywords : List String) (ha : answer ≠ "") (hk : expected_keywords ≠ []) :
    evaluate_effectiveness question answer expected_keywords =
      ((expected_keywords.countP (fun keyword => substrCI answer keyword) : ℚ) /
        (expected_keywords.length : ℚ)) := by
  have hA : answer.isEmpty = false := by
    cases hE : answer.isEmpty with
    | false => rfl
    | true => exact absurd ((String.isEmpty_iff answer).mp hE) ha
  have hK : expected_keywords.isEmpty = false := by
    cases hE : expected_keywords.isEmpty with
    | false => rfl
    | true => exact absurd (List.isEmpty_eq_true.mp hE) hk
  have h1 : (answer.isEmpty || expected_keywords.isEmpty) = false := by rw [hA, hK]; rfl
  simp only [evaluate_effectiveness, h1, Bool.false_eq_true, if_false, foldl_count_eq,
    Nat.zero_add]

theorem evaluate_effectiveness_mem (question answer : String)
    (expected_keywords : List String) :
    0 ≤ evaluate_effectiveness question answer expected_keywords ∧
      evaluate_effectiveness question answer expected_keywords ≤ 1 := by
  unfold evaluate_effectiveness
  split
  · norm_num
  · rw [foldl_count_eq, Nat.zero_add]
    exact ⟨ratio_nonneg _ _, ratio_le_one (List.countP_le_length _)⟩

theorem evaluate_faithfulness_eq (answer : String) (source_documents : List SourceDoc)
    (hf : extract_facts answer ≠ []) (hd : source_documents ≠ []) :
    evaluate_faithfulness answer source_documents =
      (((extract_facts answer).countP (fun fact => fact_supported source_documents fact) : ℚ) /
        ((extract_facts answer).length : ℚ)) := by
  have ha : answer ≠ "" := by
    intro h
    subst h
    exact hf extract_facts_empty
  have hA : answer.isEmpty = false := by
    cases hE : answer.isEmpty with
    | false => rfl
    | true => exact absurd ((String.isEmpty_iff answer).mp hE) ha
  have hD : source_documents.isEmpty = false := by
    cases hE : source_documents.isEmpty with
    | false => rfl
    | true => exact absurd (List.isEmpty_eq_true.mp hE) hd
  have h1 : (answer.isEmpty || source_documents.isEmpty) = false := by rw [hA, hD]; rfl
  have h2 : (extract_facts answer).isEmpty = false := by
    simp [List.isEmpty_eq_true, hf]
  simp only [evaluate_faithfulness, h1, h2, Bool.false_eq_true, if_false, foldl_count_eq,
    Nat.zero_add]

theorem evaluate_faithfulness_zero (answer : String) (source_documents : List SourceDoc)
    (h : extract_facts answer = [] ∨ source_documents = []) :
    evaluate_faithfulness answer source_documents = 0 := by
  unfold evaluate_faithfulness
  rcases h with h | h <;> simp [h]

theorem evaluate_faithfulness_mem (answer : String) (source_documents : List SourceDoc) :
    0 ≤ evaluate_faithfulness answer source_documents ∧
      evaluate_faithfulness answer source_documents ≤ 1 := by
  simp only [evaluate_faithfulness]
  split
  · norm_num
  · split
    · norm_num
    · rw [foldl_count_eq, Nat.zero_add]
      exact ⟨ratio_nonneg _ _, ratio_le_one (List.countP_le_length _)⟩

/-- C3: for every answer and expected-keyword list, the effectiveness score
is the fraction of keywords occurring case-insensitively as substrings of the
answer; it is `0` when the answer or the keyword list is empty, and always
lies in `[0, 1]`. -/
theorem spec_c3 (question answer : String) (expected_keywords : List String) :
    (0 ≤ evaluate_effectiveness question answer expected_keywords ∧
      evaluate_effectiveness question answer expected_keywords ≤ 1)
    ∧ (answer = "" → evaluate_effectiveness question answer expected_keywords = 0)
    ∧ (expected_keywords = [] → evaluate_effectiveness question answer expected_keywords = 0)
    ∧ (answer ≠ "" → expected_keywords ≠ [] →
        evaluate_effectiveness question answer expected_keywords =
          ((expected_keywords.countP (fun keyword => substrCI answer keyword) : ℚ) /
            (expected_keywords.length : ℚ)))
    ∧ (∀ keyword, substrCI answer keyword = true ↔
        OccursIn (strLower keyword).toList (strLower answer).toList) := by
  refine ⟨evaluate_effectiveness_mem question answer expected_keywords, ?_, ?_,
    evaluate_effectiveness_eq question answer expected_keywords, ?_⟩
  · intro h
    simp [evaluate_effectiveness, h, String.isEmpty_iff]
  · intro h
    simp [evaluate_effectiveness, h]
  · intro keyword
    exact infixOfB_iff _ _

theorem spec_c3_witness :
    (("The rate in Greater Sydney" : String) ≠ "" ∧
      (["rate", "Sydney", "count"] : List String) ≠ []) ∧
    evaluate_effectiveness "q" "The rate in Greater Sydney" ["rate", "Sydney", "count"] =
      (((["rate", "Sydney", "count"] : List String).countP
          (fun keyword => substrCI "The rate in Greater Sydney" keyword) : ℚ) /
        ((["rate", "Sydney", "count"] : List String).length : ℚ)) :=
  ⟨⟨by decide, by decide⟩,
    (spec_c3 "q" "The rate in Greater Sydney" ["rate", "Sydney", "count"]).2.2.2.1
      (by decide) (by decide)⟩

/-- C2: the faithfulness score extracts facts from the answer (digit runs and
vocabulary terms occurring in it), counts a fact as supported when it occurs
case-insensitively in some retrieved document's content, and returns
supported/total; it is `0` when no facts are extracted or no documents were
retrieved, and always lies in `[0, 1]`. -/
theorem spec_c2 (answer : String) (source_documents : List SourceDoc) :
    (0 ≤ evaluate_faithfulness answer source_documents ∧
      evaluate_faithfulness answer source_documents ≤ 1)
    ∧ ((extract_facts answer = [] ∨ source_documents = []) →
        evaluate_faithfulness answer source_documents = 0)
    ∧ (extract_facts answer ≠ [] → source_documents ≠ [] →
        evaluate_faithfulness answer source_documents =
          (((extract_facts answer).countP
              (fun fact => fact_supported source_documents fact) : ℚ) /
            ((extract_facts answer).length : ℚ)))
    ∧ (∀ fact ∈ extract_facts answer,
        (fact.toList ≠ [] ∧ (∀ c ∈ fact.toList, c.isDigit = true) ∧
            OccursIn fact.toList answer.toList)
        ∨ (fact ∈ crime_types ∧ OccursIn fact.toList answer.toList)
        ∨ (fact ∈ lgas ∧ OccursIn fact.toList answer.toList)
        ∨ (fact ∈ trends ∧ OccursIn fact.toList (strLower answer).toList))
    ∧ (∀ fact, fact_supported source_documents fact = true ↔
        ∃ doc ∈ source_documents,
          OccursIn (strLower fact).toList (strLower doc.content).toList) := by
  exact ⟨evaluate_faithfulness_mem answer source_documents,
    evaluate_faithfulness_zero answer source_documents,
    evaluate_faithfulness_eq answer source_documents,
    fun fact hf => extract_facts_mem answer fact hf,
    fun fact => fact_supported_iff source_documents fact⟩

theorem spec_c2_witness :
    (extract_facts "Assault increased to 500 in Greater Sydney" ≠ [] ∧
      ([⟨"Greater Sydney assault rate is 500 per 100000", [("lga", "Greater Sydney")]⟩] :
        List SourceDoc) ≠ []) ∧
    evaluate_faithfulness "Assault increased to 500 in Greater Sydney"
        [⟨"Greater Sydney assault rate is 500 per 100000", [("lga", "Greater Sydney")]⟩] =
      (((extract_facts "Assault increased to 500 in Greater Sydney").countP
          (fun fact => fact_supported
            [⟨"Greater Sydney assault rate is 500 per 100000", [("lga", "Greater Sydney")]⟩]
            fact) : ℚ) /
        ((extract_facts "Assault increased to 500 in Greater Sydney").length : ℚ)) :=
  ⟨⟨by decide, by decide⟩,
    (spec_c2 "Assault increased to 500 in Greater Sydney"
        [⟨"Greater Sydney assault rate is 500 per 100000", [("lga", "Greater Sydney")]⟩]).2.2.1
      (by decide) (by decide)⟩

/-- C4: the source-attribution score is `|actualRegions ∩ expectedSources| /
|expectedSources|` over the `lga` metadata of the retrieved documents; with
no expected sources it is `1` when some document was retrieved and `0`
otherwise; and it always lies in `[0, 1]`. -/
theorem spec_c4 (source_documents : List SourceDoc) (expected_sources : List String) :
    (expected_sources ≠ [] →
      evaluate_source_attribution source_documents expected_sources =
        (((actual_sources source_documents ∩ expected_sources.toFinset).card : ℚ) /
          (expected_sources.toFinset.card : ℚ)))
    ∧ (expected_sources = [] →
        evaluate_source_attribution source_documents expected_sources =
          if source_documents = [] then 0 else 1)
    ∧ (0 ≤ evaluate_source_attribution source_documents expected_sources ∧
        evaluate_source_attribution source_documents expected_sources ≤ 1)
    ∧ (∀ s, s ∈ actual_sources source_documents ↔
        ∃ doc ∈ source_documents, doc.metadata.lookup "lga" = some s) := by
  refine ⟨?_, ?_, ?_, ?_⟩
  · intro he
    have hK : expected_sources.isEmpty = false := by
      cases hE : expected_sources.isEmpty with
      | false => rfl
      | true => exact absurd (List.isEmpty_eq_true.mp hE) he
    cases source_documents with
    | nil =>
      simp [evaluate_source_attribution, actual_sources]
    | cons d ds =>
      simp only [evaluate_source_attribution, List.isEmpty_cons, Bool.false_eq_true,
        if_false, hK]
  · intro he
    subst he
    cases source_documents with
    | nil => simp [evaluate_source_attribution]
    | cons d ds => simp [evaluate_source_attribution]
  · simp only [evaluate_source_attribution]
    split
    · norm_num
    · split
      · norm_num
      · refine ⟨ratio_nonneg _ _, ratio_le_one ?_⟩
        exact Finset.card_le_card Finset.inter_subset_right
  · intro s
    simp [actual_sources, List.mem_filterMap]

theorem spec_c4_witness :
    ((["Greater Sydney", "NSW Regional"] : List String) ≠ []) ∧
    evaluate_source_attribution [⟨"c", [("lga", "Greater Sydney")]⟩]
        ["Greater Sydney", "NSW Regional"] =
      (((actual_sources [⟨"c", [("lga", "Greater Sydney")]⟩] ∩
          (["Greater Sydney", "NSW Regional"] : List String).toFinset).card : ℚ) /
        (((["Greater Sydney", "NSW Regional"] : List String).toFinset.card : ℚ))) :=
  ⟨by decide,
    (spec_c4 [⟨"c", [("lga", "Greater Sydney")]⟩] ["Greater Sydney", "NSW Regional"]).1
      (by decide)⟩

/-- The run loop appends exactly the per-item contributions, in benchmark
order, to whatever was accumulated before. -/
theorem run_evaluation_eq {ε : Type} (query : String → Except ε QueryResult)
    (tsOf : String → String) :
    ∀ (gts : List GroundTruthItem) (prior : List EvaluationResult),
      run_evaluation query tsOf gts prior =
        prior ++ gts.filterMap (eval_item query tsOf) := by
  intro gts
  induction gts with
  | nil => intro prior; simp [run_evaluation]
  | cons gt rest ih =>
    intro prior
    rw [run_evaluation]
    cases hq : query gt.question with
    | error e => simp [hq, ih, List.filterMap_cons, eval_item]
    | ok result => simp [hq, ih, List.filterMap_cons, eval_item]

/-- Every result of a run from an empty accumulator is built by
`mk_evaluation_result` from some successfully queried benchmark item. -/
theorem mem_run_evaluation {ε : Type} {query : String → Except ε QueryResult}
    {tsOf : String → String} {gts : List GroundTruthItem} {r : EvaluationResult}
    (h : r ∈ run_evaluation query tsOf gts []) :
    ∃ gt result, query gt.question = Except.ok result ∧
      r = mk_evaluation_result gt result (tsOf gt.question) := by
  rw [run_evaluation_eq] at h
  simp only [List.nil_append] at h
  obtain ⟨gt, hgt, hi⟩ := List.mem_filterMap.mp h
  cases hq : query gt.question with
  | error e => simp [eval_item, hq] at hi
  | ok result =>
    refine ⟨gt, result, hq, ?_⟩
    simp only [eval_item, hq] at hi
    exact (Option.some.injEq _ _ ▸ hi).symm

/-- C1: every `EvaluationResult` produced by a run has
`overall = 0.4·effectiveness + 0.4·faithfulness + 0.2·sourceAttribution`,
and the overall score lies in `[0, 1]` whenever its three components do. -/
theorem spec_c1 {ε : Type} (query : String → Except ε QueryResult)
    (tsOf : String → String) (gts : List GroundTruthItem) (r : EvaluationResult)
    (hr : r ∈ run_evaluation query tsOf gts []) :
    r.overall_score = (4/10) * r.effectiveness_score + (4/10) * r.faithfulness_score
        + (2/10) * r.source_attribution_score
    ∧ ((0 ≤ r.effectiveness_score ∧ r.effectiveness_score ≤ 1) →
       (0 ≤ r.faithfulness_score ∧ r.faithfulness_score ≤ 1) →
       (0 ≤ r.source_attribution_score ∧ r.source_attribution_score ≤ 1) →
       0 ≤ r.overall_score ∧ r.overall_score ≤ 1) := by
  obtain ⟨gt, result, hq, rfl⟩ := mem_run_evaluation hr
  constructor
  · simp only [mk_evaluation_result]
    ring
  · rintro ⟨e0, e1⟩ ⟨f0, f1⟩ ⟨s0, s1⟩
    simp only [mk_evaluation_result] at e0 e1 f0 f1 s0 s1 ⊢
    constructor
    · have he := mul_nonneg e0 (by norm_num : (0:ℚ) ≤ 4/10)
      have hf := mul_nonneg f0 (by norm_num : (0:ℚ) ≤ 4/10)
      have hs := mul_nonneg s0 (by norm_num : (0:ℚ) ≤ 2/10)
      linarith
    · have he := mul_le_mul_of_nonneg_right e1 (by norm_num : (0:ℚ) ≤ 4/10)
      have hf := mul_le_mul_of_nonneg_right f1 (by norm_num : (0:ℚ) ≤ 4/10)
      have hs := mul_le_mul_of_nonneg_right s1 (by norm_num : (0:ℚ) ≤ 2/10)
      linarith

theorem spec_c1_witness :
    (mk_evaluation_result ⟨"q", ["500"], []⟩ ⟨"q", "a 500", []⟩ "t" ∈
      run_evaluation (fun q => (Except.ok ⟨q, "a 500", []⟩ : Except Unit QueryResult))
        (fun _ => "t") [⟨"q", ["500"], []⟩] ([] : List EvaluationResult)) ∧
    (mk_evaluation_result ⟨"q", ["500"], []⟩ ⟨"q", "a 500", []⟩ "t").overall_score =
      (4/10) * (mk_evaluation_result ⟨"q", ["500"], []⟩ ⟨"q", "a 500", []⟩ "t").effectiveness_score
      + (4/10) * (mk_evaluation_result ⟨"q", ["500"], []⟩ ⟨"q", "a 500", []⟩ "t").faithfulness_score
      + (2/10) * (mk_evaluation_result ⟨"q", ["500"], []⟩ ⟨"q", "a 500", []⟩ "t").source_attribution_score := by
  have hmem : mk_evaluation_result ⟨"q", ["500"], []⟩ ⟨"q", "a 500", []⟩ "t" ∈
      run_evaluation (fun q => (Except.ok ⟨q, "a 500", []⟩ : Except Unit QueryResult))
        (fun _ => "t") [⟨"q", ["500"], []⟩] ([] : List EvaluationResult) := by
    rw [run_evaluation_eq]
    simp [eval_item]
  exact ⟨hmem,
    (spec_c1 (fun q => (Except.ok ⟨q, "a 500", []⟩ : Except Unit QueryResult)) (fun _ => "t")
      [⟨"q", ["500"], []⟩] _ hmem).1⟩

/-- C9: a benchmark item whose query raises is skipped (contributing no
result) and the run continues with the remaining items; a successful item
contributes exactly one result; and the whole run is the in-order
concatenation of the per-item contributions, each item queried once. -/
theorem spec_c9 {ε : Type} (query : String → Except ε QueryResult)
    (tsOf : String → String) (gt : GroundTruthItem) (rest : List GroundTruthItem)
    (prior : List EvaluationResult) :
    (∀ e, query gt.question = Except.error e →
      run_evaluation query tsOf (gt :: rest) prior = run_evaluation query tsOf rest prior)
    ∧ (∀ result, query gt.question = Except.ok result →
        run_evaluation query tsOf (gt :: rest) prior =
          run_evaluation query tsOf rest
            (prior ++ [mk_evaluation_result gt result (tsOf gt.question)]))
    ∧ run_evaluation query tsOf (gt :: rest) prior =
        prior ++ (gt :: rest).filterMap (eval_item query tsOf) := by
  refine ⟨?_, ?_, run_evaluation_eq query tsOf (gt :: rest) prior⟩
  · intro e he
    rw [run_evaluation, he]
  · intro result hres
    rw [run_evaluation, hres]

theorem spec_c9_witness :
    ((fun _ => Except.error () : String → Except Unit QueryResult)
        (⟨"q", ["k"], ["s"]⟩ : GroundTruthItem).question = Except.error ()) ∧
    run_evaluation (fun _ => Except.error () : String → Except Unit QueryResult)
        (fun _ => "t") [⟨"q", ["k"], ["s"]⟩] [] =
      run_evaluation (fun _ => Except.error () : String → Except Unit QueryResult)
        (fun _ => "t") [] [] :=
  ⟨rfl,
    (spec_c9 (fun _ => Except.error ()) (fun _ => "t") ⟨"q", ["k"], ["s"]⟩ [] []).1 () rfl⟩

/-- C10: the result sequence is created empty, each run only appends to it
(preserving the benchmark), a second run extends the first run's sequence,
and the report is derived from every accumulated result, not only the most
recent run's. -/
theorem spec_c10 {ε : Type} (query : String → Except ε QueryResult) (tsOf : String → String) :
    RAGEvaluator.construct.evaluation_results = []
    ∧ (∀ ev : RAGEvaluator,
        (ev.run query tsOf).evaluation_results =
          ev.evaluation_results ++ ev.ground_truth_data.filterMap (eval_item query tsOf))
    ∧ (∀ ev : RAGEvaluator, (ev.run query tsOf).ground_truth_data = ev.ground_truth_data)
    ∧ (∀ (ev : RAGEvaluator) (query2 : String → Except ε QueryResult) (tsOf2 : String → String),
        ((ev.run query tsOf).run query2 tsOf2).evaluation_results =
          ev.evaluation_results ++ ev.ground_truth_data.filterMap (eval_item query tsOf)
            ++ ev.ground_truth_data.filterMap (eval_item query2 tsOf2))
    ∧ (∀ (ev : RAGEvaluator) (query2 : String → Except ε QueryResult) (tsOf2 : String → String),
        RAGEvaluator.report_of ((ev.run query tsOf).run query2 tsOf2) =
          generate_report (ev.evaluation_results
            ++ ev.ground_truth_data.filterMap (eval_item query tsOf)
            ++ ev.ground_truth_data.filterMap (eval_item query2 tsOf2))) := by
  refine ⟨rfl, ?_, ?_, ?_, ?_⟩
  · intro ev
    simp [RAGEvaluator.run, run_evaluation_eq]
  · intro ev
    rfl
  · intro ev q2 t2
    simp [RAGEvaluator.run, run_evaluation_eq, List.append_assoc]
  · intro ev q2 t2
    simp [RAGEvaluator.report_of, RAGEvaluator.run, run_evaluation_eq, List.append_assoc]

/-- C6: `initialize_pipeline` builds the index exactly when `force_recreate`
is set or no persisted index exists, and loads the persisted index exactly
when `force_recreate` is unset and the persist directory exists. -/
theorem spec_c6 (st : PipelineState) (persist_directory_exists : Bool)
    (documents : List Document) (force_recreate : Bool) :
    ((∃ st1, initialize_pipeline st persist_directory_exists documents force_recreate
        = Except.ok st1 ∧ st1.vectorstore = some (Vectorstore.created documents)) ↔
      (force_recreate = true ∨ persist_directory_exists = false))
    ∧ ((∃ st1, initialize_pipeline st persist_directory_exists documents force_recreate
        = Except.ok st1 ∧ st1.vectorstore = some Vectorstore.loaded) ↔
      (force_recreate = false ∧ persist_directory_exists = true)) := by
  cases force_recreate <;> cases persist_directory_exists <;>
    simp [initialize_pipeline, create_vector_store, load_vector_store, setup_qa_chain]

/-- C7: `query` on a pipeline with no wired QA chain fails with the
not-initialized error and yields no result, while after any successful
`initialize_pipeline` a query returns a result. -/
theorem spec_c7 (st : PipelineState) (chain : String → String × List SourceDoc)
    (question : String) :
    (st.qa_chain = none →
      pipeline_query st chain question = Except.error PipelineError.qa_chain_not_set)
    ∧ (∀ (st0 : PipelineState) (persist_directory_exists : Bool)
          (documents : List Document) (force_recreate : Bool) (st1 : PipelineState),
        initialize_pipeline st0 persist_directory_exists documents force_recreate
          = Except.ok st1 →
        ∃ result, pipeline_query st1 chain question = Except.ok result) := by
  constructor
  · intro h
    simp [pipeline_query, h]
  · intro st0 pde documents fr st1 hinit
    simp only [initialize_pipeline] at hinit
    split at hinit <;>
    · simp only [setup_qa_chain, create_vector_store, load_vector_store,
        Except.ok.injEq] at hinit
      subst hinit
      exact ⟨_, rfl⟩

theorem spec_c7_witness :
    pipeline_init.qa_chain = none ∧
    pipeline_query pipeline_init (fun q => (q, [])) "hello" =
      Except.error PipelineError.qa_chain_not_set :=
  ⟨rfl, (spec_c7 pipeline_init (fun q => (q, [])) "hello").1 rfl⟩

/-- C8: generating a report with no accumulated evaluation results yields the
explicit no-results report instead of computing averages. -/
theorem spec_c8 (ev : RAGEvaluator) (h : ev.evaluation_results = []) :
    RAGEvaluator.report_of ev = Report.error "No evaluation results available" := by
  simp [RAGEvaluator.report_of, generate_report, h]

theorem spec_c8_witness :
    RAGEvaluator.construct.evaluation_results = [] ∧
    RAGEvaluator.report_of RAGEvaluator.construct =
      Report.error "No evaluation results available" :=
  ⟨rfl, spec_c8 RAGEvaluator.construct rfl⟩
